import Mathlib

/-!
Shallow embedding of scripts/bes.py, a validator for the BES binary model
container format.  Byte buffers are lists of naturals (each element is one
byte of the Python bytes object).  Python `struct.unpack` raises
`struct.error` when the buffer is too short; this is modelled by the
`Res.exn` result.  The `while` loop of `BES.parse_blocks` does not always
terminate (a declared block size of 0 leaves the cursor in place), so the
loop and the mutual recursion through the block handlers are driven by
explicit fuel; `Res.diverge` marks fuel exhaustion and `parse_blocks f`
agrees with the Python function whenever some fuel suffices.
Diagnostic output (the logging module) is modelled as a trace of events;
a `dispatch` event marks the branch taken by `process_block_by_label`,
standing for the entry into the selected handler.
-/

set_option linter.unusedVariables false

namespace BES

/-- Byte of a buffer at a given offset; reads past the end yield 0.  All
call sites guard the length first, mirroring struct.unpack in bes.py. -/
def byteAt (data : List Nat) (i : Nat) : Nat := (data.drop i).headD 0

/-- Little endian 32 bit read at an offset, as struct.unpack format I. -/
def readU32 (data : List Nat) (off : Nat) : Nat :=
  byteAt data off + 256 * byteAt data (off + 1) +
    65536 * byteAt data (off + 2) + 16777216 * byteAt data (off + 3)

/-- Little endian encoding of a 32 bit value, inverse of readU32. -/
def enc32 (n : Nat) : List Nat :=
  [n % 256, n / 256 % 256, n / 65536 % 256, n / 16777216 % 256]

/-- Strip NUL bytes from both ends, as the Python str.strip(chr(0)) call
in pchar_to_string. -/
def stripNul (l : List Nat) : List Nat :=
  ((l.dropWhile (· == 0)).reverse.dropWhile (· == 0)).reverse

/-- pchar_to_string: ascii-decode a byte string and strip NUL bytes from
both ends.  Decoding fails (UnicodeDecodeError) on bytes above 127. -/
def pchar_to_string (pchar : List Nat) : Option (List Nat) :=
  if pchar.all (· < 128) then some (stripNul pchar) else none

/-- BES.BlockPresence: cardinality rule for one block label. -/
inductive BlockPresence where
  | OptSingle
  | OptMultiple
  | ReqSingle
  | ReqMultiple
deriving DecidableEq

/-- A schema, as the dict passed to BES.parse_blocks: label to rule. -/
abbrev Schema := List (Nat × BlockPresence)

/-- Texture coordinate markers appended to the verbose output string. -/
inductive CoordMarker where
  | uTile
  | uMirror
  | vTile
  | vMirror
deriving DecidableEq

/-- One diagnostic message sent to the logging module (warnings, errors
and the pieces of verbose output the claims refer to).  The Nat argument
called index is the nesting depth used for indentation. -/
inductive Event where
  | badVersion
  | headerTrailing
  | unexpectedBlock (index label : Nat)
  | occMax (index label : Nat)
  | occMin (label : Nat)
  | moreData (index label : Nat)
  | unknownBlock (label : Nat)
  | dispatch (label index : Nat)
  | vertexSizeMismatch (index : Nat)
  | sizeMismatch (index : Nat)
  | nameLenInvalid (index : Nat)
  | undocumentedBitmap
  | unknownCoordSettings (coord : Nat)
  | unknownBitmap (mapID : Nat)
  | marker (m : CoordMarker)
  | invalidSides (v : Nat)
  | collisionNonzero
  | vegetNonzero
  | textureTypeMismatch (coord : Nat)
  | unknownTexBits (coord : Nat)
  | unknownTexture (texID : Nat)
  | propsLog (index : Nat) (text : List Nat)
deriving DecidableEq

/-- Exceptions: struct.error from a short unpack, UnicodeDecodeError from
a non-ascii string, and the two RuntimeError messages of bes.py. -/
inductive RtErr where
  | badSignature
  | missingPreview
deriving DecidableEq

inductive Exc where
  | structErr
  | decodeErr
  | runtimeErr (m : RtErr)
deriving DecidableEq

/-- Result of running a piece of bes.py: normal return with the emitted
trace, an escaped exception with the trace emitted before it, or fuel
exhaustion (modelling nontermination). -/
inductive Res (α : Type) where
  | ok (tr : List Event) (a : α)
  | exn (tr : List Event) (e : Exc)
  | diverge
deriving DecidableEq

/-- Prepend already-emitted events to a result. -/
def Res.withPre {α : Type} (pre : List Event) : Res α → Res α
  | .ok tr a => .ok (pre ++ tr) a
  | .exn tr e => .exn (pre ++ tr) e
  | .diverge => .diverge

/-- Sequence two computations, accumulating traces. -/
def Res.bind {α β : Type} : Res α → (α → Res β) → Res β
  | .ok tr a, f => (f a).withPre tr
  | .exn tr e, _ => .exn tr e
  | .diverge, _ => .diverge

/-- Dict membership test of parse_blocks: label in blocks. -/
def lookupRule (blocks : Schema) (label : Nat) : Option BlockPresence :=
  (blocks.find? (fun p => p.1 == label)).map (·.2)

/-- blocks_parsed[label] = True (marking is idempotent, as for a dict). -/
def insertSeen (seen : List Nat) (label : Nat) : List Nat :=
  if seen.contains label then seen else label :: seen

/-- The final loop of parse_blocks: a (min 1) warning for every required
label never seen, in schema order. -/
def minWarnings (blocks : Schema) (seen : List Nat) : List Event :=
  blocks.filterMap fun p =>
    if (p.2 = .ReqSingle ∨ p.2 = .ReqMultiple) ∧ ¬ seen.contains p.1 then
      some (.occMin p.1)
    else none

/-- Child schema used by parse_block_object. -/
def objectSchema : Schema :=
  [(0x0001, .OptMultiple), (0x0030, .OptSingle), (0x0034, .OptSingle),
   (0x0035, .OptSingle), (0x0038, .OptSingle), (0x1000, .OptSingle)]

/-- Child schema used by parse_block_unk30. -/
def unk30Schema : Schema :=
  [(0x0031, .OptMultiple), (0x0034, .ReqSingle), (0x0035, .ReqSingle),
   (0x0036, .OptSingle)]

/-- Child schema used by parse_block_mesh. -/
def meshSchema : Schema := [(0x0032, .ReqSingle), (0x0033, .ReqSingle)]

/-- Child schema used by parse_block_material. -/
def materialSchema : Schema := [(0x1001, .OptMultiple), (0x1002, .OptMultiple)]

/-- Root schema used by parse_data. -/
def rootSchema : Schema := [(0x0001, .ReqSingle), (0x0070, .ReqSingle)]

/-- Type of the recursive re-entry into parse_blocks that the container
handlers receive (the outer fuel layer fixes it). -/
abbrev Recurse := Schema → List Nat → Nat → Res Unit

/-- BES.parse_block_object: children and name length, the name bytes, a
verbose log (which ascii-decodes the name), then recursion into the
children with the object child schema. -/
def parse_block_object (recurse : Recurse) (data : List Nat) (index : Nat) : Res Unit :=
  if data.length < 8 then .exn [] .structErr
  else
    let name_size := readU32 data 4
    if data.length - 8 < name_size then .exn [] .structErr
    else
      match pchar_to_string ((data.drop 8).take name_size) with
      | none => .exn [] .decodeErr
      | some _ => recurse objectSchema (data.drop (8 + name_size)) (index + 1)

/-- BES.parse_block_unk30. -/
def parse_block_unk30 (recurse : Recurse) (data : List Nat) (index : Nat) : Res Unit :=
  if data.length < 4 then .exn [] .structErr
  else recurse unk30Schema (data.drop 4) (index + 1)

/-- BES.parse_block_mesh. -/
def parse_block_mesh (recurse : Recurse) (data : List Nat) (index : Nat) : Res Unit :=
  if data.length < 4 then .exn [] .structErr
  else recurse meshSchema (data.drop 4) (index + 1)

/-- BES.parse_block_vertices: the stride check, and only when the stride
matches, the payload length check (elif in the source). -/
def parse_block_vertices (data : List Nat) (index : Nat) : Res Unit :=
  if data.length < 12 then .exn [] .structErr
  else
    let count := readU32 data 0
    let size := readU32 data 4
    let vType := readU32 data 8
    let texCnt := (vType >>> 8) &&& 0xFF
    if 24 + 8 * texCnt ≠ size then .ok [.vertexSizeMismatch index] ()
    else if data.length - 12 ≠ size * count then .ok [.sizeMismatch index] ()
    else .ok [] ()

/-- BES.parse_block_faces. -/
def parse_block_faces (data : List Nat) (index : Nat) : Res Unit :=
  if data.length < 4 then .exn [] .structErr
  else
    let count := readU32 data 0
    .ok (if data.length - 4 ≠ count * 12 then [.sizeMismatch index] else []) ()

/-- BES.parse_block_properties: text length, text bytes, verbose log of
the stripped text, then the size check. -/
def parse_block_properties (data : List Nat) (index : Nat) : Res Unit :=
  if data.length < 4 then .exn [] .structErr
  else
    let count := readU32 data 0
    if data.length - 4 < count then .exn [] .structErr
    else
      match pchar_to_string ((data.drop 4).take count) with
      | none => .exn [] .decodeErr
      | some txt =>
        .ok (.propsLog index txt ::
          (if count + 4 ≠ data.length then [.sizeMismatch index] else [])) ()

/-- BES.parse_block_unk35: three floats (only their 12 bytes matter for
control flow), then the fixed length check. -/
def parse_block_unk35 (data : List Nat) (index : Nat) : Res Unit :=
  if data.length < 12 then .exn [] .structErr
  else .ok (if data.length ≠ 100 then [.sizeMismatch index] else []) ()

/-- BES.parse_block_unk36: verbose log only. -/
def parse_block_unk36 (data : List Nat) (index : Nat) : Res Unit := .ok [] ()

/-- BES.parse_block_unk38: verbose log only. -/
def parse_block_unk38 (data : List Nat) (index : Nat) : Res Unit := .ok [] ()

/-- BES.parse_block_user_info: name and comment fields, the verbose log
(which ascii-decodes both), then the two validity checks. -/
def parse_block_user_info (data : List Nat) (index : Nat) : Res Unit :=
  if data.length < 12 then .exn [] .structErr
  else
    let name_size := readU32 data 0
    let comment_size := readU32 data 4
    if data.length - 12 < name_size then .exn [] .structErr
    else if data.length - 76 < comment_size then .exn [] .structErr
    else
      match pchar_to_string ((data.drop 12).take name_size),
            pchar_to_string ((data.drop 76).take comment_size) with
      | some _, some _ =>
        .ok ((if name_size > 64 then [.nameLenInvalid index] else []) ++
             (if data.length ≠ 76 + comment_size then [.sizeMismatch index] else [])) ()
      | _, _ => .exn [] .decodeErr

/-- BES.parse_block_material. -/
def parse_block_material (recurse : Recurse) (data : List Nat) (index : Nat) : Res Unit :=
  if data.length < 4 then .exn [] .structErr
  else recurse materialSchema (data.drop 4) (index + 1)

/-- Loop body of BES.parse_block_bitmap over the 32 possible map bits.
Index 8 of BES.Bitmap.maps is the UNKNOWN entry, and the list has 12
entries.  Returns the final record cursor. -/
def bitmap_records (data : List Nat) (bType : Nat) : List Nat → Nat → Res Nat
  | [], ptr => .ok [] ptr
  | mapID :: rest, ptr =>
    if bType.testBit mapID then
      if mapID < 12 then
        Res.withPre (if mapID = 8 then [.undocumentedBitmap] else [])
          (if data.length - ptr < 8 then .exn [] .structErr
           else
             let name_size := readU32 (data.drop ptr) 0
             let coord := readU32 (data.drop ptr) 4
             if data.length - (ptr + 8) < name_size then .exn [] .structErr
             else
               match pchar_to_string ((data.drop (ptr + 8)).take name_size) with
               | none => .exn [] .decodeErr
               | some _ =>
                 let uEv := if coord &&& 0x5 ≠ 0 then
                     (if coord &&& 0x5 = 0x1 then [.marker .uTile]
                      else if coord &&& 0x5 = 0x4 then [.marker .uMirror]
                      else [.unknownCoordSettings coord]) else []
                 let vEv := if coord &&& 0xA ≠ 0 then
                     (if coord &&& 0xA = 0x2 then [.marker .vTile]
                      else if coord &&& 0xA = 0xA then [.marker .vMirror]
                      else [.unknownCoordSettings coord]) else []
                 Res.withPre (uEv ++ vEv)
                   (bitmap_records data bType rest (ptr + 8 + name_size)))
      else
        Res.withPre [.unknownBitmap mapID] (bitmap_records data bType rest ptr)
    else bitmap_records data bType rest ptr

/-- BES.parse_block_bitmap: header fields, the per-bit records, then the
final cursor check. -/
def parse_block_bitmap (data : List Nat) (index : Nat) : Res Unit :=
  if data.length < 12 then .exn [] .structErr
  else
    let bType := readU32 data 8
    (bitmap_records data bType (List.range 32) 12).bind fun ptr =>
      .ok (if ptr ≠ data.length then [.sizeMismatch index] else []) ()

/-- BES.PteroMat.parseTexture: coord and name length, name bytes, the
UNKNOWN entry warning (texs index 5), the texture type check against the
high coord bits, the 0xFFFC unknown-bits warning, the ascii decode of the
name, and the tile markers for the low two coord bits.  Returns the
number of bytes consumed. -/
def ptero_parseTexture (data : List Nat) (texID : Nat) : Res Nat :=
  if data.length < 8 then .exn [] .structErr
  else
    let coord := readU32 data 0
    let name_size := readU32 data 4
    if data.length - 8 < name_size then .exn [] .structErr
    else
      let evs :=
        (if texID - 16 = 5 then [.undocumentedBitmap] else []) ++
        (if (coord >>> 16) ≠ (1 <<< (texID - 16)) then [.textureTypeMismatch coord] else []) ++
        (if coord &&& 0xFFFC ≠ 0 then [.unknownTexBits coord] else [])
      match pchar_to_string ((data.drop 8).take name_size) with
      | none => .exn evs .decodeErr
      | some _ =>
        .ok (evs ++ (if coord &&& 0x1 ≠ 0 then [.marker .uTile] else [])
                 ++ (if coord &&& 0x2 ≠ 0 then [.marker .vTile] else []))
          (8 + name_size)

/-- Loop body of BES.parse_block_ptero_mat over the 32 possible texture
bits; texture ids outside [16, 24) are unsupported. -/
def ptero_records (data : List Nat) (pType : Nat) : List Nat → Nat → Res Nat
  | [], ptr => .ok [] ptr
  | texID :: rest, ptr =>
    if pType.testBit texID then
      if 16 ≤ texID ∧ texID < 24 then
        (ptero_parseTexture (data.drop ptr) texID).bind fun dataSize =>
          ptero_records data pType rest (ptr + dataSize)
      else
        Res.withPre [.unknownTexture texID] (ptero_records data pType rest ptr)
    else ptero_records data pType rest ptr

/-- BES.parse_block_ptero_mat: fixed fields, name, the three settings
warnings, the per-bit texture records, then the final cursor check. -/
def parse_block_ptero_mat (data : List Nat) (index : Nat) : Res Unit :=
  if data.length < 20 then .exn [] .structErr
  else if data.length < 24 then .exn [] .structErr
  else
    let tSides := readU32 data 0
    let pType := readU32 data 4
    let name_size := readU32 data 20
    if data.length - 24 < name_size then .exn [] .structErr
    else
      let warns :=
        (if tSides &&& 0xFFFFFFE ≠ 0 then [.invalidSides tSides] else []) ++
        (if ¬ (byteAt data 10 = 0 ∧ byteAt data 11 = 0) then [.collisionNonzero] else []) ++
        (if ¬ (byteAt data 18 = 0 ∧ byteAt data 19 = 0) then [.vegetNonzero] else [])
      match pchar_to_string ((data.drop 24).take name_size) with
      | none => .exn warns .decodeErr
      | some _ =>
        Res.withPre warns
          ((ptero_records data pType (List.range 32) (24 + name_size)).bind fun ptr =>
            .ok (if ptr ≠ data.length then [.sizeMismatch index] else []) ())

/-- BES.process_block_by_label: branch on the label; the dispatch event
marks the selected handler.  An unknown label only logs a warning (and a
hex dump to stdout) without invoking any handler. -/
def process_block_by_label (recurse : Recurse) (label : Nat)
    (subblock : List Nat) (index : Nat) : Res Unit :=
  if label = 0x0001 then
    Res.withPre [.dispatch label index] (parse_block_object recurse subblock index)
  else if label = 0x0030 then
    Res.withPre [.dispatch label index] (parse_block_unk30 recurse subblock index)
  else if label = 0x0031 then
    Res.withPre [.dispatch label index] (parse_block_mesh recurse subblock index)
  else if label = 0x0032 then
    Res.withPre [.dispatch label index] (parse_block_vertices subblock index)
  else if label = 0x0033 then
    Res.withPre [.dispatch label index] (parse_block_faces subblock index)
  else if label = 0x0034 then
    Res.withPre [.dispatch label index] (parse_block_properties subblock index)
  else if label = 0x0035 then
    Res.withPre [.dispatch label index] (parse_block_unk35 subblock index)
  else if label = 0x0036 then
    Res.withPre [.dispatch label index] (parse_block_unk36 subblock index)
  else if label = 0x0038 then
    Res.withPre [.dispatch label index] (parse_block_unk38 subblock index)
  else if label = 0x0070 then
    Res.withPre [.dispatch label index] (parse_block_user_info subblock index)
  else if label = 0x1000 then
    Res.withPre [.dispatch label index] (parse_block_material recurse subblock index)
  else if label = 0x1001 then
    Res.withPre [.dispatch label index] (parse_block_bitmap subblock index)
  else if label = 0x1002 then
    Res.withPre [.dispatch label index] (parse_block_ptero_mat subblock index)
  else .ok [.unknownBlock label] ()

/-- The labels that select a handler in process_block_by_label. -/
def isKnownLabel (label : Nat) : Bool :=
  [0x0001, 0x0030, 0x0031, 0x0032, 0x0033, 0x0034, 0x0035, 0x0036, 0x0038,
   0x0070, 0x1000, 0x1001, 0x1002].contains label

/-- BES.parse_block_desc: label and declared size of one descriptor. -/
def parse_block_desc (data : List Nat) : Nat × Nat :=
  (readU32 data 0, readU32 data 4)

/-- The while loop of BES.parse_blocks, driven by loop fuel.  State:
cursor, the label of the last decoded descriptor, and the seen labels.
A remaining span shorter than the 8 byte descriptor raises struct.error;
the declared size is never bounds checked and a size of 0 repeats the
iteration forever (fuel exhaustion). -/
def parse_blocks_loop (recurse : Recurse) (blocks : Schema) (index : Nat) :
    Nat → List Nat → Nat → List Nat → Option Nat →
    Res (Nat × Option Nat × List Nat)
  | 0, _, _, _, _ => .diverge
  | l + 1, data, start, seen, lastLabel =>
    if start < data.length then
      if data.length - start < 8 then .exn [] .structErr
      else
        let desc := parse_block_desc (data.drop start)
        let label := desc.1
        let size := desc.2
        let preSeen : List Event × List Nat :=
          match lookupRule blocks label with
          | none => ([.unexpectedBlock index label], seen)
          | some rule =>
            ((if (rule = .OptSingle ∨ rule = .ReqSingle) ∧ seen.contains label then
                [.occMax index label] else []),
             insertSeen seen label)
        let subblock := (data.drop (start + 8)).take (size - 8)
        Res.withPre preSeen.1
          ((process_block_by_label recurse label subblock index).bind fun _ =>
            parse_blocks_loop recurse blocks index l data (start + size) preSeen.2
              (some label))
    else
      .ok [] (start, lastLabel, seen)

/-- BES.parse_blocks at one recursion level: the loop, the trailing
cursor check, and the required-labels check.  The loop fuel
data.length + 1 is exhausted exactly when the Python loop repeats a
cursor position forever. -/
def parse_blocks_run (recurse : Recurse) (blocks : Schema) (data : List Nat)
    (index : Nat) : Res Unit :=
  match parse_blocks_loop recurse blocks index (data.length + 1) data 0 [] none with
  | .ok tr (start, lastLabel, seen) =>
    .ok (tr ++ (if start ≠ data.length then [.moreData index (lastLabel.getD 0)] else [])
           ++ minWarnings blocks seen) ()
  | .exn tr e => .exn tr e
  | .diverge => .diverge

/-- BES.parse_blocks with a fuel bound on the recursion depth through the
container handlers. -/
def parse_blocks : Nat → Schema → List Nat → Nat → Res Unit
  | 0, _, _, _ => .diverge
  | fuel + 1, blocks, data, index => parse_blocks_run (parse_blocks fuel) blocks data index

/-- Canonical run: one byte of input buys far more than one level of
nesting, so this fuel is never exhausted on inputs the Python code
finishes. -/
def runScan (blocks : Schema) (data : List Nat) (index : Nat) : Res Unit :=
  parse_blocks (data.length + 1) blocks data index

/-- BES.Header.sig. -/
def besSig : List Nat := [0x42, 0x45, 0x53, 0x00]

/-- BES.Header.ver. -/
def besVer : List Nat := [0x30, 0x31, 0x30, 0x30, 0x00]

/-- BES.parse_header: 16 byte header, fatal on a signature mismatch,
warnings for an unsupported version and nonzero trailing bytes. -/
def parse_header (data : List Nat) : Res Unit :=
  if data.length < 16 then .exn [] .structErr
  else if data.take 4 ≠ besSig then .exn [] (.runtimeErr .badSignature)
  else
    .ok ((if (data.drop 4).take 5 ≠ besVer then [.badVersion] else []) ++
         (if (data.drop 13).take 3 ≠ [0, 0, 0] then [.headerTrailing] else [])) ()

/-- BES.parse_preview: fatal when the buffer cannot hold the preview. -/
def parse_preview (data : List Nat) : Res Unit :=
  if data.length < 0x3010 then .exn [] (.runtimeErr .missingPreview) else .ok [] ()

/-- BES.parse_data: scan the bytes after the preview with the root schema. -/
def parse_data (fuel : Nat) (data : List Nat) : Res Unit :=
  parse_blocks fuel rootSchema (data.drop 0x3010) 0

/-- Outcome of processFile for one file: normal completion, a fatal
condition caught and logged (RuntimeError), an uncaught exception
(struct.error or UnicodeDecodeError would crash the batch), or
nontermination. -/
inductive FileOutcome where
  | done
  | fatal (m : RtErr)
  | crash
  | hang
deriving DecidableEq

def outcomeOfExc : Exc → FileOutcome
  | .runtimeErr m => .fatal m
  | .structErr => .crash
  | .decodeErr => .crash

/-- processFile: header, then the preview check, and only then the branch
between preview extraction (external image encoder) and validation. -/
def processFile (fuel : Nat) (data : List Nat) (extract : Bool) :
    List Event × FileOutcome :=
  match parse_header data with
  | .exn tr e => (tr, outcomeOfExc e)
  | .diverge => ([], .hang)
  | .ok tr _ =>
    match parse_preview data with
    | .exn tr2 e => (tr ++ tr2, outcomeOfExc e)
    | .diverge => (tr, .hang)
    | .ok tr2 _ =>
      if extract then (tr ++ tr2, .done)
      else
        match parse_data fuel data with
        | .ok tr3 _ => (tr ++ tr2 ++ tr3, .done)
        | .exn tr3 e => (tr ++ tr2 ++ tr3, outcomeOfExc e)
        | .diverge => (tr ++ tr2, .hang)

/-- One encoded block: descriptor (label and total size, including the 8
descriptor bytes) followed by the payload. -/
def mkBlock (label : Nat) (payload : List Nat) : List Nat :=
  enc32 label ++ enc32 (8 + payload.length) ++ payload

/-- Nesting depths of the dispatch events of a trace. -/
def dispatchDepths (tr : List Event) : List Nat :=
  tr.filterMap fun e => match e with | .dispatch _ d => some d | _ => none

/-- An Object block nested d+1 levels deep: children 0, name length 0,
and one child Object block below. -/
def nest : Nat → List Nat
  | 0 => mkBlock 0x0001 (List.replicate 8 0)
  | d + 1 => mkBlock 0x0001 (List.replicate 8 0 ++ nest d)

theorem enc32_length (n : Nat) : (enc32 n).length = 4 := rfl

theorem mkBlock_length (label : Nat) (p : List Nat) :
    (mkBlock label p).length = 8 + p.length := by
  simp [mkBlock, enc32]
  omega

theorem byteAt_append_right (a b : List Nat) (i : Nat) (h : a.length ≤ i) :
    byteAt (a ++ b) i = byteAt b (i - a.length) := by
  unfold byteAt
  rw [List.drop_append_eq_append_drop, List.drop_eq_nil_of_le h, List.nil_append]

theorem readU32_append (a l : List Nat) (k : Nat) (h : a.length ≤ k) :
    readU32 (a ++ l) k = readU32 l (k - a.length) := by
  unfold readU32
  rw [byteAt_append_right a l k h,
      byteAt_append_right a l (k + 1) (by omega),
      byteAt_append_right a l (k + 2) (by omega),
      byteAt_append_right a l (k + 3) (by omega),
      show k + 1 - a.length = k - a.length + 1 by omega,
      show k + 2 - a.length = k - a.length + 2 by omega,
      show k + 3 - a.length = k - a.length + 3 by omega]

theorem readU32_enc32 (n : Nat) (r : List Nat) :
    readU32 (enc32 n ++ r) 0 = n % 4294967296 := by
  simp [readU32, enc32, byteAt]
  omega

theorem parse_block_desc_enc (a b : Nat) (r : List Nat) :
    parse_block_desc (enc32 a ++ enc32 b ++ r) =
      (a % 4294967296, b % 4294967296) := by
  unfold parse_block_desc
  rw [List.append_assoc, readU32_enc32,
      readU32_append (enc32 a) (enc32 b ++ r) 4 (by simp [enc32])]
  simp [enc32_length, readU32_enc32]

theorem drop8_desc (a b : Nat) (r : List Nat) :
    (enc32 a ++ enc32 b ++ r).drop 8 = r := by
  simp [enc32]

theorem loop_exit (recurse : Recurse) (blocks : Schema) (index l start : Nat)
    (data : List Nat) (seen : List Nat) (last : Option Nat)
    (h0 : 0 < l) (h : data.length ≤ start) :
    parse_blocks_loop recurse blocks index l data start seen last =
      .ok [] (start, last, seen) := by
  obtain ⟨l', rfl⟩ : ∃ l', l = l' + 1 := ⟨l - 1, by omega⟩
  simp only [parse_blocks_loop]
  rw [if_neg (by omega)]

theorem Res.withPre_nil {α : Type} (r : Res α) : Res.withPre [] r = r := by
  cases r <;> simp [Res.withPre]

theorem Res.bind_ok {α β : Type} (tr : List Event) (a : α) (f : α → Res β) :
    (Res.ok tr a).bind f = (f a).withPre tr := rfl

theorem loop_step_some (recurse : Recurse) (blocks : Schema) (index l start : Nat)
    (data tail : List Nat) (seen : List Nat) (last : Option Nat)
    (label size : Nat) (rule : BlockPresence)
    (hd : data.drop start = enc32 label ++ enc32 size ++ tail)
    (hlab : label < 4294967296) (hsz : size < 4294967296)
    (hr : lookupRule blocks label = some rule) (h0 : 0 < l) :
    parse_blocks_loop recurse blocks index l data start seen last =
      Res.withPre
        (if (rule = .OptSingle ∨ rule = .ReqSingle) ∧ seen.contains label then
            [.occMax index label] else [])
        ((process_block_by_label recurse label (tail.take (size - 8)) index).bind fun _ =>
          parse_blocks_loop recurse blocks index (l - 1) data (start + size)
            (insertSeen seen label) (some label)) := by
  obtain ⟨l', rfl⟩ : ∃ l', l = l' + 1 := ⟨l - 1, by omega⟩
  have hlen : data.length - start = 8 + tail.length := by
    have := congrArg List.length hd
    simp [enc32] at this
    omega
  have hstart : start < data.length := by
    by_contra hcon
    have hnil : data.drop start = [] := List.drop_eq_nil_of_le (by omega)
    rw [hnil] at hd
    exact absurd (congrArg List.length hd) (by simp [enc32])
  have hsub : data.drop (start + 8) = tail := by
    rw [← List.drop_drop, hd, drop8_desc]
  simp only [parse_blocks_loop]
  rw [if_pos hstart, if_neg (by omega)]
  simp only [hd, hsub, parse_block_desc_enc, Nat.mod_eq_of_lt hlab,
    Nat.mod_eq_of_lt hsz, hr, Nat.add_sub_cancel]

theorem loop_step_none (recurse : Recurse) (blocks : Schema) (index l start : Nat)
    (data tail : List Nat) (seen : List Nat) (last : Option Nat)
    (label size : Nat)
    (hd : data.drop start = enc32 label ++ enc32 size ++ tail)
    (hlab : label < 4294967296) (hsz : size < 4294967296)
    (hr : lookupRule blocks label = none) (h0 : 0 < l) :
    parse_blocks_loop recurse blocks index l data start seen last =
      Res.withPre [.unexpectedBlock index label]
        ((process_block_by_label recurse label (tail.take (size - 8)) index).bind fun _ =>
          parse_blocks_loop recurse blocks index (l - 1) data (start + size)
            seen (some label)) := by
  obtain ⟨l', rfl⟩ : ∃ l', l = l' + 1 := ⟨l - 1, by omega⟩
  have hlen : data.length - start = 8 + tail.length := by
    have := congrArg List.length hd
    simp [enc32] at this
    omega
  have hstart : start < data.length := by
    by_contra hcon
    have hnil : data.drop start = [] := List.drop_eq_nil_of_le (by omega)
    rw [hnil] at hd
    exact absurd (congrArg List.length hd) (by simp [enc32])
  have hsub : data.drop (start + 8) = tail := by
    rw [← List.drop_drop, hd, drop8_desc]
  simp only [parse_blocks_loop]
  rw [if_pos hstart, if_neg (by omega)]
  simp only [hd, hsub, parse_block_desc_enc, Nat.mod_eq_of_lt hlab,
    Nat.mod_eq_of_lt hsz, hr, Nat.add_sub_cancel]

theorem run_block (recurse : Recurse) (blocks : Schema) (index label size : Nat)
    (payload : List Nat) (trh : List Event) (rule : BlockPresence)
    (hr : lookupRule blocks label = some rule)
    (hlab : label < 4294967296) (hsz : size < 4294967296)
    (hbig : 8 + payload.length ≤ size)
    (hpb : process_block_by_label recurse label payload index = .ok trh ()) :
    parse_blocks_run recurse blocks (enc32 label ++ enc32 size ++ payload) index =
      .ok (trh ++ (if size ≠ 8 + payload.length then [.moreData index label] else [])
             ++ minWarnings blocks (insertSeen [] label)) () := by
  have hdl : (enc32 label ++ enc32 size ++ payload).length = 8 + payload.length := by
    simp [enc32]
    omega
  have htake : payload.take (size - 8) = payload :=
    List.take_of_length_le (by omega)
  unfold parse_blocks_run
  rw [loop_step_some recurse blocks index _ 0 _ payload [] none label size rule
      (by rw [List.drop_zero]) hlab hsz hr (by omega),
    htake, hpb, Res.bind_ok,
    loop_exit recurse blocks index _ (0 + size) _ (insertSeen [] label) (some label)
      (by omega) (by omega)]
  simp [Res.withPre, hdl, enc32_length]
  rw [show (4 : Nat) + (4 + payload.length) = 8 + payload.length by omega]

theorem parse_blocks_nil (f index : Nat) (blocks : Schema) (h0 : 0 < f) :
    parse_blocks f blocks [] index = .ok (minWarnings blocks []) () := by
  obtain ⟨f', rfl⟩ : ∃ f'', f = f'' + 1 := ⟨f - 1, by omega⟩
  simp only [parse_blocks, parse_blocks_run]
  rw [loop_exit (parse_blocks f') blocks index _ 0 [] [] none (by omega) (by simp)]
  simp

theorem mem_minWarnings {e : Event} {blocks : Schema} {seen : List Nat}
    (h : e ∈ minWarnings blocks seen) : ∃ lab, e = .occMin lab := by
  simp only [minWarnings, List.mem_filterMap] at h
  obtain ⟨p, _, he⟩ := h
  split at he
  · exact ⟨p.1, (Option.some_injective _ he).symm⟩
  · exact absurd he (by simp)

theorem byteAt_zeros8 (x : List Nat) (i : Nat) (hi : i < 8) :
    byteAt (List.replicate 8 0 ++ x) i = 0 := by
  unfold byteAt
  rw [List.drop_append_eq_append_drop, List.drop_replicate]
  obtain ⟨k, hk⟩ : ∃ k, 8 - i = k + 1 := ⟨7 - i, by omega⟩
  rw [List.length_replicate, hk, List.replicate_succ]
  rfl

theorem readU32_zeros8 (x : List Nat) : readU32 (List.replicate 8 0 ++ x) 4 = 0 := by
  unfold readU32
  rw [byteAt_zeros8 x 4 (by omega), byteAt_zeros8 x 5 (by omega),
      byteAt_zeros8 x 6 (by omega), byteAt_zeros8 x 7 (by omega)]

theorem nest_length (d : Nat) : (nest d).length = 16 * (d + 1) := by
  induction d with
  | zero => decide
  | succ d ih =>
    show (mkBlock 0x0001 (List.replicate 8 0 ++ nest d)).length = 16 * (d + 1 + 1)
    rw [mkBlock_length]
    simp [ih]
    omega

theorem nest_succ_shape (d : Nat) :
    nest (d + 1) = enc32 0x0001 ++ enc32 (16 * (d + 2)) ++
      (List.replicate 8 0 ++ nest d) := by
  show mkBlock 0x0001 (List.replicate 8 0 ++ nest d) = _
  unfold mkBlock
  have h : 8 + (List.replicate 8 0 ++ nest d).length = 16 * (d + 2) := by
    simp [nest_length]
    omega
  rw [h]

theorem drop8_zeros8 (x : List Nat) : (List.replicate 8 (0 : Nat) ++ x).drop 8 = x := by
  have h := List.drop_left (List.replicate 8 (0 : Nat)) x
  rwa [List.length_replicate] at h

theorem dropWhile_zeros (n : Nat) (t : List Nat) :
    (List.replicate n 0 ++ t).dropWhile (· == 0) = t.dropWhile (· == 0) := by
  rw [List.dropWhile_append, List.dropWhile_replicate]
  simp

theorem stripNul_pad (n m : Nat) (s : List Nat) :
    stripNul (List.replicate n 0 ++ s ++ List.replicate m 0) = stripNul s := by
  unfold stripNul
  rw [List.append_assoc, dropWhile_zeros, List.dropWhile_append]
  by_cases h : (s.dropWhile (· == 0)).isEmpty
  · rw [if_pos h, List.dropWhile_replicate, if_pos (by simp)]
    rw [List.isEmpty_iff] at h
    rw [h]
  · rw [if_neg h, List.reverse_append, List.reverse_replicate, dropWhile_zeros]

theorem pchar_pad (n m : Nat) (s : List Nat) :
    pchar_to_string (List.replicate n 0 ++ s ++ List.replicate m 0) =
      pchar_to_string s := by
  unfold pchar_to_string
  have hall : ((List.replicate n 0 ++ s ++ List.replicate m 0).all (· < 128)) =
      s.all (· < 128) := by
    simp
  rw [hall]
  by_cases h : s.all (· < 128)
  · rw [if_pos h, if_pos h, stripNul_pad]
  · rw [if_neg h, if_neg h]

theorem dispatchDepths_cons_dispatch (l i : Nat) (tr : List Event) :
    dispatchDepths (.dispatch l i :: tr) = i :: dispatchDepths tr := by
  simp [dispatchDepths]

theorem dispatchDepths_append (a b : List Event) :
    dispatchDepths (a ++ b) = dispatchDepths a ++ dispatchDepths b := by
  simp [dispatchDepths]

theorem process_object_zeros (f index : Nat) (child : List Nat) (tr : List Event)
    (h : parse_blocks f objectSchema child (index + 1) = .ok tr ()) :
    process_block_by_label (parse_blocks f) 0x0001 (List.replicate 8 0 ++ child) index =
      .ok (.dispatch 0x0001 index :: tr) () := by
  have hlen : (List.replicate 8 (0 : Nat) ++ child).length = 8 + child.length := by
    simp
    omega
  have hns : readU32 (List.replicate 8 0 ++ child) 4 = 0 := readU32_zeros8 child
  have hdrop : (List.replicate 8 (0 : Nat) ++ child).drop 8 = child := drop8_zeros8 child
  have hps : pchar_to_string [] = some [] := rfl
  unfold process_block_by_label
  rw [if_pos rfl]
  unfold parse_block_object
  rw [hns, hlen, if_neg (by omega), if_neg (by omega)]
  simp only [List.take_zero, hps]
  have h8 : (8 : Nat) + 0 = 8 := rfl
  rw [h8, hdrop, h]
  simp [Res.withPre]

theorem loop_zero_diverge (recurse : Recurse) (index : Nat) (rest : List Nat) :
    ∀ (l : Nat) (seen : List Nat) (last : Option Nat),
      parse_blocks_loop recurse [(0x0036, .OptSingle)] index l
        (enc32 0x0036 ++ enc32 0 ++ rest) 0 seen last = .diverge := by
  intro l
  induction l with
  | zero => intro seen last; rfl
  | succ l ih =>
    intro seen last
    rw [loop_step_some recurse [(0x0036, .OptSingle)] index (l + 1) 0
        (enc32 0x0036 ++ enc32 0 ++ rest) rest seen last 0x0036 0 .OptSingle
        (by rw [List.drop_zero]) (by omega) (by omega) (by decide) (by omega)]
    have hp : process_block_by_label recurse 0x0036 (rest.take (0 - 8)) index =
        .ok [.dispatch 0x0036 index] () := by
      unfold process_block_by_label
      rw [if_neg (by omega), if_neg (by omega), if_neg (by omega), if_neg (by omega),
          if_neg (by omega), if_neg (by omega), if_neg (by omega), if_pos rfl]
      rfl
    rw [hp, Res.bind_ok]
    have hl : l + 1 - 1 = l := rfl
    have h0 : (0 : Nat) + 0 = 0 := rfl
    rw [hl, h0, ih (insertSeen seen 0x0036) (some 0x0036)]
    simp [Res.withPre]

theorem nest_scan : ∀ (d f index : Nat) (blocks : Schema) (rule : BlockPresence),
    lookupRule blocks 0x0001 = some rule → d + 2 ≤ f →
    16 * (d + 1) < 4294967296 →
    ∃ tr, parse_blocks f blocks (nest d) index = .ok tr () ∧
      (index + d) ∈ dispatchDepths tr := by
  intro d
  induction d with
  | zero =>
    intro f index blocks rule hr hf hb
    obtain ⟨f', rfl⟩ : ∃ x, f = x + 1 := ⟨f - 1, by omega⟩
    have hchild : parse_blocks f' objectSchema [] (index + 1) = .ok [] () := by
      rw [parse_blocks_nil f' (index + 1) objectSchema (by omega)]
      decide
    have hpb : process_block_by_label (parse_blocks f') 0x0001 (List.replicate 8 0)
        index = .ok [.dispatch 0x0001 index] () := by
      have h2 := process_object_zeros f' index [] [] hchild
      rwa [List.append_nil] at h2
    have hshape : nest 0 = enc32 0x0001 ++ enc32 16 ++ List.replicate 8 0 := by decide
    have heq : parse_blocks (f' + 1) blocks (nest 0) index =
        .ok ([.dispatch 0x0001 index] ++
          (if 16 ≠ 8 + (List.replicate 8 (0 : Nat)).length then [.moreData index 0x0001] else [])
          ++ minWarnings blocks (insertSeen [] 0x0001)) () := by
      simp only [parse_blocks]
      rw [hshape]
      exact run_block (parse_blocks f') blocks index 0x0001 16 (List.replicate 8 0)
        _ rule hr (by omega) (by omega) (by simp) hpb
    refine ⟨_, heq, ?_⟩
    rw [if_neg (by simp)]
    simp [dispatchDepths_append, dispatchDepths_cons_dispatch]
  | succ d ih =>
    intro f index blocks rule hr hf hb
    obtain ⟨f', rfl⟩ : ∃ x, f = x + 1 := ⟨f - 1, by omega⟩
    obtain ⟨tr', htr', hmem⟩ :=
      ih f' (index + 1) objectSchema .OptMultiple (by decide) (by omega) (by omega)
    have hpb := process_object_zeros f' index (nest d) tr' htr'
    have hbig : 8 + (List.replicate 8 (0 : Nat) ++ nest d).length ≤ 16 * (d + 2) := by
      simp [nest_length]
      omega
    have heq : parse_blocks (f' + 1) blocks (nest (d + 1)) index =
        .ok ((.dispatch 0x0001 index :: tr') ++
          (if 16 * (d + 2) ≠ 8 + (List.replicate 8 (0 : Nat) ++ nest d).length then
            [.moreData index 0x0001] else [])
          ++ minWarnings blocks (insertSeen [] 0x0001)) () := by
      simp only [parse_blocks]
      rw [nest_succ_shape]
      exact run_block (parse_blocks f') blocks index 0x0001 (16 * (d + 2))
        (List.replicate 8 0 ++ nest d) _ rule hr (by omega)
        (by omega) hbig hpb
    refine ⟨_, heq, ?_⟩
    rw [if_neg (by simp [nest_length]; omega)]
    rw [List.append_nil, dispatchDepths_append, dispatchDepths_cons_dispatch]
    have harith : index + (d + 1) = index + 1 + d := by omega
    rw [harith]
    exact List.mem_cons_of_mem _ (List.mem_append_left _ hmem)

end BES

open BES

/-- Counterexample to C1.  The schema of a Mesh block contains only the
Vertices and Faces labels.  A single well formed Object block (label
0x0001, absent from that schema) is reported as unexpected, but its
payload is nevertheless dispatched to the Object handler: the trace
contains the dispatch event for label 0x0001, contradicting the claim
that no block handler is invoked on the payload of a block whose label is
absent from the schema. -/
theorem C1_counterexample :
    runScan meshSchema (mkBlock 0x0001 (List.replicate 8 0)) 0 =
      .ok [.unexpectedBlock 0 0x0001, .dispatch 0x0001 0,
           .occMin 0x0032, .occMin 0x0033] () ∧
    .dispatch 0x0001 0 ∈
      [Event.unexpectedBlock 0 0x0001, .dispatch 0x0001 0,
       .occMin 0x0032, .occMin 0x0033] ∧
    lookupRule meshSchema 0x0001 = none := by
  refine ⟨by decide, by decide, by decide⟩

/-- Counterexample to C2.  A span of four zero bytes is nonempty but too
short to hold the 8 byte block descriptor; BES.unpack raises struct.error
inside parse_blocks and the exception escapes the scan (it is not turned
into a finding of the Diagnostic Sink), contradicting the claim that the
scan always returns normally. -/
theorem C2_counterexample :
    parse_blocks 5 [] [0, 0, 0, 0] 0 = .exn [] .structErr := by
  decide

/-- Counterexample to C3.  A span holding a single descriptor with label
0x0036 and declared size 100 overruns the 8 byte span.  The engine does
not stop before dispatching: the Unk36 handler is dispatched on the
truncated (empty) payload, and only after the loop does the engine report
the size error.  The trace therefore contains a dispatch event for the
overrunning block, contradicting the claim that an overrunning descriptor
stops the scan without dispatching into the payload. -/
theorem C3_counterexample :
    runScan [(0x0036, .OptSingle)] (enc32 0x0036 ++ enc32 100) 0 =
      .ok [.dispatch 0x0036 0, .moreData 0 0x0036] () ∧
    .dispatch 0x0036 0 ∈ [Event.dispatch 0x0036 0, .moreData 0 0x0036] := by
  refine ⟨by decide, by decide⟩

/-- Claim C4 (code bug).  Evaluation of parse_block_bitmap at the failing
inputs.  A Bitmap block with one map record: coordFlags 0x8 (V mirror bit
alone) is reported as an unknown coordinate settings error instead of
yielding the V mirror marker, while coordFlags 0xA (both V bits) yields
the V mirror marker and no error.  The U axis behaves as the claim says
(0x1 tile, 0x4 mirror, 0x5 exactly one error), as does V tile (0x2); the
V branch of the source compares coord and 0xA against 0xA where the U
branch compares coord and 0x5 against 0x4, so the 0x8 case is a slip. -/
theorem C4_theorem :
    parse_block_bitmap (enc32 0 ++ [0, 0, 0, 0] ++ enc32 1 ++ enc32 0 ++ enc32 0x8) 0 =
      .ok [.unknownCoordSettings 0x8] () ∧
    parse_block_bitmap (enc32 0 ++ [0, 0, 0, 0] ++ enc32 1 ++ enc32 0 ++ enc32 0xA) 0 =
      .ok [.marker .vMirror] () ∧
    parse_block_bitmap (enc32 0 ++ [0, 0, 0, 0] ++ enc32 1 ++ enc32 0 ++ enc32 0x2) 0 =
      .ok [.marker .vTile] () ∧
    parse_block_bitmap (enc32 0 ++ [0, 0, 0, 0] ++ enc32 1 ++ enc32 0 ++ enc32 0x1) 0 =
      .ok [.marker .uTile] () ∧
    parse_block_bitmap (enc32 0 ++ [0, 0, 0, 0] ++ enc32 1 ++ enc32 0 ++ enc32 0x4) 0 =
      .ok [.marker .uMirror] () ∧
    parse_block_bitmap (enc32 0 ++ [0, 0, 0, 0] ++ enc32 1 ++ enc32 0 ++ enc32 0x5) 0 =
      .ok [.unknownCoordSettings 0x5] () := by
  refine ⟨by decide, by decide, by decide, by decide, by decide, by decide⟩

/-- Counterexample to C5.  A Vertices block with count 1, stride 10,
type flags 0 (texCount 0, expected stride 24) and 5 vertex bytes violates
both the stride check (10 is not 24) and the length check (5 is not
10 times 1), yet the source reports only the stride error because the
length check sits in an elif branch: the two checks are not independent. -/
theorem C5_counterexample :
    parse_block_vertices (enc32 1 ++ enc32 10 ++ enc32 0 ++ [0, 0, 0, 0, 0]) 0 =
      .ok [.vertexSizeMismatch 0] () ∧
    24 + 8 * 0 ≠ 10 ∧
    (enc32 1 ++ enc32 10 ++ enc32 0 ++ [0, 0, 0, 0, 0]).length - 12 ≠ 10 * 1 := by
  refine ⟨by decide, by decide, by decide⟩

/-- Counterexample to C6.  A 16 byte buffer holding a valid header is
processed in validation mode: parse_preview runs before the branch on the
requested mode, raises the missing preview RuntimeError, and the file is
fatally aborted without ever reaching block scanning (the trace is empty,
in particular it has no dispatch events), contradicting the claim that a
file with a valid header proceeds to block scanning when validation is
requested on a buffer shorter than 0x3010 bytes. -/
theorem C6_counterexample :
    processFile 5 [0x42, 0x45, 0x53, 0, 0x30, 0x31, 0x30, 0x30, 0, 0, 0, 0, 0, 0, 0, 0]
        false = ([], .fatal .missingPreview) := by
  decide

/-- Counterexample to C7.  The parser enforces no maximum nesting depth:
an input with Object blocks nested 65 levels deep, one more than the
depth 64 named by the claim, is parsed to completion (the scan returns
normally rather than failing the parse), and the handler recursion
actually reaches depth 65, as witnessed by a dispatch event at depth 65. -/
theorem C7_counterexample :
    ∃ tr, runScan rootSchema (nest 65) 0 = .ok tr () ∧
      65 ∈ dispatchDepths tr ∧ 64 < 65 := by
  obtain ⟨tr, h1, h2⟩ := nest_scan 65 ((nest 65).length + 1) 0 rootSchema .ReqSingle
    (by decide) (by rw [nest_length]; omega) (by omega)
  exact ⟨tr, h1, by simpa using h2, by omega⟩

/-- Claim C7, amended.  The parser imposes and enforces no explicit
maximum nesting depth: the depth argument is used only for log
indentation, and an input whose Object nesting exceeds the claimed
example bound of 64 — any depth up to 65 here, shallow enough that the
host interpreter completes the recursion — is parsed to completion, with
the recursion between the scanner and the Object handler reaching that
depth, instead of failing the parse at an enforced bound.  (Far deeper
nesting is cut off only incidentally by the interpreter recursion limit,
not by any check in the source.) -/
theorem C7_theorem (d : Nat) (hd : d ≤ 65) :
    ∃ tr, runScan rootSchema (nest d) 0 = .ok tr () ∧ d ∈ dispatchDepths tr := by
  obtain ⟨tr, h1, h2⟩ := nest_scan d ((nest d).length + 1) 0 rootSchema .ReqSingle
    (by decide) (by rw [nest_length]; omega) (by omega)
  exact ⟨tr, h1, by simpa using h2⟩

/-- Witness for C7_theorem at depth 64. -/
theorem C7_witness :
    64 ≤ 65 ∧
    ∃ tr, runScan rootSchema (nest 64) 0 = .ok tr () ∧ 64 ∈ dispatchDepths tr :=
  ⟨by omega, C7_theorem 64 (by omega)⟩

/-- Claim C3, amended.  An overrunning descriptor does not stop the scan
before dispatching: the handler is dispatched on the truncated payload,
the loop then leaves the span, and a structural (more data than expected)
error is reported only after the loop.  Moreover no size lower bound is
enforced: a descriptor with declared size 0 (smaller than 8) leaves the
cursor in place, and the scan never returns, for any amount of fuel. -/
theorem C3_theorem :
    (∀ (f : Nat) (blocks : Schema) (index label size : Nat) (payload : List Nat)
        (trh : List Event) (rule : BlockPresence),
      lookupRule blocks label = some rule →
      label < 4294967296 → size < 4294967296 →
      8 + payload.length < size →
      process_block_by_label (parse_blocks f) label payload index = .ok trh () →
      parse_blocks (f + 1) blocks (enc32 label ++ enc32 size ++ payload) index =
        .ok (trh ++ [.moreData index label] ++
          minWarnings blocks (insertSeen [] label)) ()) ∧
    (∀ (f index : Nat) (rest : List Nat),
      parse_blocks f [(0x0036, .OptSingle)] (enc32 0x0036 ++ enc32 0 ++ rest) index =
        .diverge) := by
  constructor
  · intro f blocks index label size payload trh rule hr hlab hsz hover hpb
    simp only [parse_blocks]
    rw [run_block (parse_blocks f) blocks index label size payload trh rule hr hlab
      hsz (by omega) hpb]
    have hne : size ≠ 8 + payload.length := by omega
    rw [if_pos hne]
  · intro f index rest
    cases f with
    | zero => rfl
    | succ f =>
      simp only [parse_blocks, parse_blocks_run]
      rw [loop_zero_diverge (parse_blocks f) index rest _ [] none]

/-- Witness for C3_theorem: an Unk36 block with declared size 20 in an 8
byte span, and an Unk36 descriptor with declared size 0. -/
theorem C3_witness :
    parse_blocks 4 [(0x0036, .OptSingle)] (enc32 0x0036 ++ enc32 20 ++ []) 0 =
      .ok ([.dispatch 0x0036 0] ++ [.moreData 0 0x0036] ++
        minWarnings [(0x0036, .OptSingle)] (insertSeen [] 0x0036)) () ∧
    parse_blocks 2 [(0x0036, .OptSingle)] (enc32 0x0036 ++ enc32 0 ++ [9]) 1 =
      .diverge :=
  ⟨C3_theorem.1 3 [(0x0036, .OptSingle)] 0 0x0036 20 [] [.dispatch 0x0036 0]
      .OptSingle (by decide) (by decide) (by decide) (by decide) (by decide),
    C3_theorem.2 2 1 [9]⟩

/-- Claim C2, amended.  The engine is not exception free: a nonempty span
shorter than the 8 byte descriptor makes BES.unpack raise struct.error,
which escapes parse_blocks to its caller, and a recognized block whose
payload is too short for the fixed fields of its handler (here Vertices
with fewer than 12 payload bytes) likewise raises out of the handler.
All other findings are delivered to the Diagnostic Sink as events. -/
theorem C2_theorem (blocks : Schema) (index f : Nat) (data : List Nat)
    (h1 : 0 < data.length) (h2 : data.length < 8) :
    parse_blocks (f + 1) blocks data index = .exn [] .structErr ∧
    (∀ (recurse : Recurse) (p : List Nat) (i : Nat), p.length < 12 →
      process_block_by_label recurse 0x0032 p i =
        .exn [.dispatch 0x0032 i] .structErr) := by
  constructor
  · simp only [parse_blocks, parse_blocks_run, parse_blocks_loop]
    rw [if_pos (by omega), if_pos (by omega)]
  · intro recurse p i hp
    unfold process_block_by_label
    rw [if_neg (by omega), if_neg (by omega), if_neg (by omega), if_pos rfl]
    unfold parse_block_vertices
    rw [if_pos hp]
    rfl

/-- Witness for C2_theorem. -/
theorem C2_witness :
    parse_blocks 3 rootSchema [7, 7, 7] 1 = .exn [] .structErr ∧
    (∀ (recurse : Recurse) (p : List Nat) (i : Nat), p.length < 12 →
      process_block_by_label recurse 0x0032 p i =
        .exn [.dispatch 0x0032 i] .structErr) :=
  C2_theorem rootSchema 1 2 [7, 7, 7] (by decide) (by decide)

/-- Claim C6, amended.  A buffer shorter than 0x3010 bytes is fatally
aborted with the missing preview error in both modes: parse_preview runs
before the branch between extraction and validation, so a file with a
valid header that is shorter than 0x3010 bytes never reaches block
scanning even when only validation was requested. -/
theorem C6_theorem (fuel : Nat) (data : List Nat) (extract : Bool)
    (hshort : data.length < 0x3010) (hlen : 16 ≤ data.length)
    (hsig : data.take 4 = besSig) :
    (processFile fuel data extract).2 = .fatal .missingPreview := by
  unfold processFile parse_header parse_preview
  rw [if_neg (by omega), if_neg (by simp [hsig]), if_pos hshort]
  cases extract <;> rfl

/-- Witness for C6_theorem: a 17 byte buffer with a valid header, in
extraction mode. -/
theorem C6_witness :
    (processFile 9 [0x42, 0x45, 0x53, 0, 0x30, 0x31, 0x30, 0x30, 0, 0, 0, 0, 0, 0, 0, 0, 5]
      true).2 = .fatal .missingPreview :=
  C6_theorem 9 [0x42, 0x45, 0x53, 0, 0x30, 0x31, 0x30, 0x30, 0, 0, 0, 0, 0, 0, 0, 0, 5]
    true (by decide) (by decide) (by decide)

/-- Claim C1, amended.  When the engine meets a block whose label is
absent from the schema it reports exactly one unexpected block warning at
the current depth and advances by the declared size to the next sibling —
but it does not skip the block: the payload is still handed to
process_block_by_label, which invokes the matching handler whenever the
label is one of the thirteen known block types.  Only a label that is
also unknown to the dispatcher is skipped with an unknown block warning
and no handler invocation. -/
theorem C1_theorem :
    (∀ (f index labelU labelK : Nat) (blocks : Schema) (ruleK : BlockPresence)
        (pU pK : List Nat) (trU trK : List Event),
      lookupRule blocks labelU = none →
      lookupRule blocks labelK = some ruleK →
      labelU < 4294967296 → labelK < 4294967296 →
      8 + pU.length < 4294967296 → 8 + pK.length < 4294967296 →
      process_block_by_label (parse_blocks f) labelU pU index = .ok trU () →
      process_block_by_label (parse_blocks f) labelK pK index = .ok trK () →
      parse_blocks (f + 1) blocks (mkBlock labelU pU ++ mkBlock labelK pK) index =
        .ok (.unexpectedBlock index labelU ::
          (trU ++ (trK ++ minWarnings blocks [labelK]))) () ∧
      (.unexpectedBlock index labelU ∉ trU → .unexpectedBlock index labelU ∉ trK →
        List.count (.unexpectedBlock index labelU)
          (.unexpectedBlock index labelU ::
            (trU ++ (trK ++ minWarnings blocks [labelK]))) = 1)) ∧
    (∀ (recurse : Recurse) (lab : Nat) (sub : List Nat) (idx : Nat),
      isKnownLabel lab = false →
      process_block_by_label recurse lab sub idx = .ok [.unknownBlock lab] ()) := by
  constructor
  · intro f index labelU labelK blocks ruleK pU pK trU trK hU hK hlU hlK hsU hsK hbU hbK
    have hlen : (mkBlock labelU pU ++ mkBlock labelK pK).length =
        (8 + pU.length) + (8 + pK.length) := by
      simp [mkBlock_length]
    have hd1 : (mkBlock labelU pU ++ mkBlock labelK pK).drop 0 =
        enc32 labelU ++ enc32 (8 + pU.length) ++ (pU ++ mkBlock labelK pK) := by
      rw [List.drop_zero]
      simp [mkBlock, List.append_assoc]
    have hd2 : (mkBlock labelU pU ++ mkBlock labelK pK).drop (0 + (8 + pU.length)) =
        enc32 labelK ++ enc32 (8 + pK.length) ++ pK := by
      have h := List.drop_left (mkBlock labelU pU) (mkBlock labelK pK)
      rw [mkBlock_length] at h
      have h0 : 0 + (8 + pU.length) = 8 + pU.length := by omega
      rw [h0, h]
      rfl
    have htk1 : 8 + pU.length - 8 = pU.length := by omega
    have htk2 : 8 + pK.length - 8 = pK.length := by omega
    constructor
    · simp only [parse_blocks]
      unfold parse_blocks_run
      rw [loop_step_none (parse_blocks f) blocks index _ 0 _ (pU ++ mkBlock labelK pK)
          [] none labelU (8 + pU.length) hd1 hlU hsU hU (by omega),
        htk1, List.take_left, hbU, Res.bind_ok,
        loop_step_some (parse_blocks f) blocks index _ (0 + (8 + pU.length)) _ pK
          [] (some labelU) labelK (8 + pK.length) ruleK hd2 hlK hsK hK
          (by rw [hlen]; omega),
        htk2, List.take_length, hbK, Res.bind_ok,
        loop_exit (parse_blocks f) blocks index _
          (0 + (8 + pU.length) + (8 + pK.length)) _ (insertSeen [] labelK)
          (some labelK) (by rw [hlen]; omega) (by rw [hlen]; omega)]
      simp [insertSeen, Res.withPre, hlen]
    · intro h1 h2
      have h3 : (Event.unexpectedBlock index labelU) ∉ minWarnings blocks [labelK] := by
        intro hmem
        obtain ⟨lab, heq'⟩ := mem_minWarnings hmem
        exact absurd heq' (by simp)
      simp [List.count_append, List.count_cons,
        List.count_eq_zero.mpr h1, List.count_eq_zero.mpr h2, List.count_eq_zero.mpr h3]
  · intro recurse lab sub idx h
    have hne : ∀ m : Nat, isKnownLabel m = true → lab ≠ m := by
      intro m hm he
      rw [he, hm] at h
      exact absurd h (by simp)
    unfold process_block_by_label
    rw [if_neg (hne 0x0001 (by decide)), if_neg (hne 0x0030 (by decide)),
      if_neg (hne 0x0031 (by decide)), if_neg (hne 0x0032 (by decide)),
      if_neg (hne 0x0033 (by decide)), if_neg (hne 0x0034 (by decide)),
      if_neg (hne 0x0035 (by decide)), if_neg (hne 0x0036 (by decide)),
      if_neg (hne 0x0038 (by decide)), if_neg (hne 0x0070 (by decide)),
      if_neg (hne 0x1000 (by decide)), if_neg (hne 0x1001 (by decide)),
      if_neg (hne 0x1002 (by decide))]

/-- Witness for C1_theorem: root schema, an Unk36 block (label absent
from the root schema but known to the dispatcher) followed by a UserInfo
block, and an unknown label 0x2222 for the dispatcher conjunct. -/
theorem C1_witness :
    (parse_blocks 2 rootSchema
        (mkBlock 0x0036 [] ++ mkBlock 0x0070 (List.replicate 76 0)) 0 =
      .ok (.unexpectedBlock 0 0x0036 ::
        ([.dispatch 0x0036 0] ++
          ([.dispatch 0x0070 0] ++ minWarnings rootSchema [0x0070]))) () ∧
      (Event.unexpectedBlock 0 0x0036 ∉ [Event.dispatch 0x0036 0] →
        Event.unexpectedBlock 0 0x0036 ∉ [Event.dispatch 0x0070 0] →
        List.count (Event.unexpectedBlock 0 0x0036)
          (.unexpectedBlock 0 0x0036 ::
            ([.dispatch 0x0036 0] ++
              ([.dispatch 0x0070 0] ++ minWarnings rootSchema [0x0070]))) = 1)) ∧
    process_block_by_label (parse_blocks 1) 0x2222 [1, 2] 3 =
      .ok [.unknownBlock 0x2222] () :=
  ⟨(C1_theorem.1 1 0 0x0036 0x0070 rootSchema .ReqSingle [] (List.replicate 76 0)
      [.dispatch 0x0036 0] [.dispatch 0x0070 0]
      (by decide) (by decide) (by decide) (by decide) (by decide) (by decide)
      (by decide) (by decide)),
    C1_theorem.2 (parse_blocks 1) 0x2222 [1, 2] 3 (by decide)⟩

/-- Claim C9.  With a schema giving some label a single-occurrence rule
(optional or required single), a span holding exactly two blocks with
that label dispatches both payloads to the block handler (both handler
traces appear in the scan trace, in order), and exactly one invalid
occurrence count (max 1) warning is emitted, placed after the first
handler trace and before the second, that is, on the second occurrence.
The handler dispatches are assumed to return normally (a raising handler
is the subject of C2). -/
theorem C9_theorem (f index label : Nat) (blocks : Schema) (rule : BlockPresence)
    (p1 p2 : List Nat) (tr1 tr2 : List Event)
    (hr : lookupRule blocks label = some rule)
    (hsingle : rule = .OptSingle ∨ rule = .ReqSingle)
    (hlab : label < 4294967296)
    (hs1 : 8 + p1.length < 4294967296) (hs2 : 8 + p2.length < 4294967296)
    (hb1 : process_block_by_label (parse_blocks f) label p1 index = .ok tr1 ())
    (hb2 : process_block_by_label (parse_blocks f) label p2 index = .ok tr2 ()) :
    parse_blocks (f + 1) blocks (mkBlock label p1 ++ mkBlock label p2) index =
      .ok (tr1 ++ .occMax index label :: (tr2 ++ minWarnings blocks [label])) () ∧
    (.occMax index label ∉ tr1 → .occMax index label ∉ tr2 →
      List.count (.occMax index label)
        (tr1 ++ .occMax index label :: (tr2 ++ minWarnings blocks [label])) = 1) := by
  have hlen : (mkBlock label p1 ++ mkBlock label p2).length =
      (8 + p1.length) + (8 + p2.length) := by
    simp [mkBlock_length]
  have hd1 : (mkBlock label p1 ++ mkBlock label p2).drop 0 =
      enc32 label ++ enc32 (8 + p1.length) ++ (p1 ++ mkBlock label p2) := by
    rw [List.drop_zero]
    simp [mkBlock, List.append_assoc]
  have hd2 : (mkBlock label p1 ++ mkBlock label p2).drop (0 + (8 + p1.length)) =
      enc32 label ++ enc32 (8 + p2.length) ++ p2 := by
    have h := List.drop_left (mkBlock label p1) (mkBlock label p2)
    rw [mkBlock_length] at h
    have h0 : 0 + (8 + p1.length) = 8 + p1.length := by omega
    rw [h0, h]
    rfl
  have htk1 : 8 + p1.length - 8 = p1.length := by omega
  have htk2 : 8 + p2.length - 8 = p2.length := by omega
  constructor
  · simp only [parse_blocks]
    unfold parse_blocks_run
    rw [loop_step_some (parse_blocks f) blocks index _ 0 _ (p1 ++ mkBlock label p2)
        [] none label (8 + p1.length) rule hd1 hlab hs1 hr (by omega),
      htk1, List.take_left, hb1, Res.bind_ok,
      loop_step_some (parse_blocks f) blocks index _ (0 + (8 + p1.length)) _ p2
        (insertSeen [] label) (some label) label (8 + p2.length) rule hd2 hlab hs2 hr
        (by rw [hlen]; omega),
      htk2, List.take_length, hb2, Res.bind_ok,
      loop_exit (parse_blocks f) blocks index _ (0 + (8 + p1.length) + (8 + p2.length))
        _ (insertSeen (insertSeen [] label) label) (some label)
        (by rw [hlen]; omega) (by rw [hlen]; omega)]
    rcases hsingle with h | h <;> subst h <;>
      simp [insertSeen, Res.withPre, hlen]
  · intro h1 h2
    have h3 : (Event.occMax index label) ∉ minWarnings blocks [label] := by
      intro hmem
      obtain ⟨lab, heq'⟩ := mem_minWarnings hmem
      exact absurd heq' (by simp)
    simp [List.count_append, List.count_cons,
      List.count_eq_zero.mpr h1, List.count_eq_zero.mpr h2, List.count_eq_zero.mpr h3]

/-- Witness for C9_theorem: schema with one required-single Unk36 label
and two empty Unk36 blocks. -/
theorem C9_witness :
    parse_blocks 2 [(0x0036, .ReqSingle)] (mkBlock 0x0036 [] ++ mkBlock 0x0036 []) 0 =
      .ok ([.dispatch 0x0036 0] ++ .occMax 0 0x0036 ::
        ([.dispatch 0x0036 0] ++ minWarnings [(0x0036, .ReqSingle)] [0x0036])) () ∧
    (Event.occMax 0 0x0036 ∉ [Event.dispatch 0x0036 0] →
      Event.occMax 0 0x0036 ∉ [Event.dispatch 0x0036 0] →
      List.count (Event.occMax 0 0x0036)
        ([.dispatch 0x0036 0] ++ .occMax 0 0x0036 ::
          ([.dispatch 0x0036 0] ++ minWarnings [(0x0036, .ReqSingle)] [0x0036])) = 1) :=
  C9_theorem 1 0 0x0036 [(0x0036, .ReqSingle)] .ReqSingle [] []
    [.dispatch 0x0036 0] [.dispatch 0x0036 0] (by decide) (Or.inr rfl)
    (by decide) (by decide) (by decide) (by decide) (by decide)

/-- Counterexample to C8.  A PteroMat texture record for texture id 16
with coord 0x00010001: the high texture type bits match (bit 16), the low
coordinate bit 0x1 is set, and the source emits no unknown-bits warning
because its warning mask is 0xFFFC (bits 2 to 15), not the low two bits.
This contradicts the claim that a warning is emitted whenever the low two
bits of coord are nonzero. -/
theorem C8_counterexample :
    ptero_parseTexture (enc32 0x00010001 ++ enc32 0) 16 =
      .ok [.marker .uTile] 8 ∧
    0x00010001 &&& 0x3 ≠ 0 := by
  refine ⟨by decide, by decide⟩

/-- Claim C5, amended.  In parse_block_vertices the two checks are
sequential, not independent: the stride error is reported whenever the
stride differs from 24 + 8 * texCount, but the payload length error is
reported only when the stride matches (elif), so a block violating both
reports only the stride error.  The concrete scenarios of the claim
hold: count 2, texCount 1, stride 32 with exactly 64 vertex bytes yields
no errors, and the same block one byte short yields exactly one size
mismatch error. -/
theorem C5_theorem :
    (∀ (data : List Nat) (index : Nat), 12 ≤ data.length →
      ∃ tr, parse_block_vertices data index = .ok tr () ∧
        ((.vertexSizeMismatch index ∈ tr) ↔
          24 + 8 * ((readU32 data 8 >>> 8) &&& 0xFF) ≠ readU32 data 4) ∧
        ((.sizeMismatch index ∈ tr) ↔
          (24 + 8 * ((readU32 data 8 >>> 8) &&& 0xFF) = readU32 data 4 ∧
            data.length - 12 ≠ readU32 data 4 * readU32 data 0))) ∧
    parse_block_vertices (enc32 2 ++ enc32 32 ++ enc32 256 ++ List.replicate 64 7) 0 =
      .ok [] () ∧
    parse_block_vertices (enc32 2 ++ enc32 32 ++ enc32 256 ++ List.replicate 63 7) 0 =
      .ok [.sizeMismatch 0] () := by
  refine ⟨?_, by decide, by decide⟩
  intro data index h12
  unfold parse_block_vertices
  rw [if_neg (by omega)]
  by_cases hstride : 24 + 8 * ((readU32 data 8 >>> 8) &&& 0xFF) ≠ readU32 data 4
  · rw [if_pos hstride]
    exact ⟨_, rfl, by simp [hstride], by simp [hstride]⟩
  · rw [if_neg hstride]
    push_neg at hstride
    by_cases hlen : data.length - 12 ≠ readU32 data 4 * readU32 data 0
    · rw [if_pos hlen]
      exact ⟨_, rfl, by simp [hstride], by simp [hstride, hlen]⟩
    · rw [if_neg hlen]
      push_neg at hlen
      exact ⟨_, rfl, by simp [hstride], by simp [hstride, hlen]⟩

/-- Witness for C5_theorem at the payload that violates both checks. -/
theorem C5_witness :
    ∃ tr, parse_block_vertices (enc32 1 ++ enc32 10 ++ enc32 0 ++ [0, 0, 0, 0, 0]) 9 =
        .ok tr () ∧
      ((.vertexSizeMismatch 9 ∈ tr) ↔
        24 + 8 * ((readU32 (enc32 1 ++ enc32 10 ++ enc32 0 ++ [0, 0, 0, 0, 0]) 8 >>> 8)
          &&& 0xFF) ≠ readU32 (enc32 1 ++ enc32 10 ++ enc32 0 ++ [0, 0, 0, 0, 0]) 4) ∧
      ((.sizeMismatch 9 ∈ tr) ↔
        (24 + 8 * ((readU32 (enc32 1 ++ enc32 10 ++ enc32 0 ++ [0, 0, 0, 0, 0]) 8 >>> 8)
          &&& 0xFF) = readU32 (enc32 1 ++ enc32 10 ++ enc32 0 ++ [0, 0, 0, 0, 0]) 4 ∧
          (enc32 1 ++ enc32 10 ++ enc32 0 ++ [0, 0, 0, 0, 0]).length - 12 ≠
            readU32 (enc32 1 ++ enc32 10 ++ enc32 0 ++ [0, 0, 0, 0, 0]) 4 *
              readU32 (enc32 1 ++ enc32 10 ++ enc32 0 ++ [0, 0, 0, 0, 0]) 0)) :=
  C5_theorem.1 (enc32 1 ++ enc32 10 ++ enc32 0 ++ [0, 0, 0, 0, 0]) 9 (by decide)

/-- Claim C8, amended.  In PteroMat texture records the unknown bits
warning is governed by the mask 0xFFFC, that is, bits 2 to 15 of coord:
the warning is emitted if and only if coord has one of those bits set.
The low two bits 0x1 and 0x2 are the U and V tile markers and never
trigger the warning. -/
theorem C8_theorem (data : List Nat) (texID : Nat)
    (h8 : 8 ≤ data.length)
    (hname : readU32 data 4 ≤ data.length - 8)
    (hascii : ((data.drop 8).take (readU32 data 4)).all (· < 128) = true) :
    ∃ tr, ptero_parseTexture data texID = .ok tr (8 + readU32 data 4) ∧
      ((.unknownTexBits (readU32 data 0) ∈ tr) ↔ readU32 data 0 &&& 0xFFFC ≠ 0) := by
  unfold ptero_parseTexture
  rw [if_neg (by omega), if_neg (by omega)]
  have hp : pchar_to_string ((data.drop 8).take (readU32 data 4)) =
      some (stripNul ((data.drop 8).take (readU32 data 4))) := by
    unfold pchar_to_string
    rw [if_pos hascii]
  rw [hp]
  refine ⟨_, rfl, ?_⟩
  constructor
  · intro hmem
    by_contra hbits
    have hne : ¬ (readU32 data 0 &&& 0xFFFC ≠ 0) := fun hc => hc hbits
    rw [if_neg hne] at hmem
    split_ifs at hmem <;> simp_all
  · intro hbits
    rw [if_pos hbits]
    simp

/-- Witness for C8_theorem: texture id 17 with coord 0x00020004, whose
bit 2 makes the mask nonzero. -/
theorem C8_witness :
    ∃ tr, ptero_parseTexture (enc32 0x00020004 ++ enc32 0) 17 =
        .ok tr (8 + readU32 (enc32 0x00020004 ++ enc32 0) 4) ∧
      ((.unknownTexBits (readU32 (enc32 0x00020004 ++ enc32 0) 0) ∈ tr) ↔
        readU32 (enc32 0x00020004 ++ enc32 0) 0 &&& 0xFFFC ≠ 0) :=
  C8_theorem (enc32 0x00020004 ++ enc32 0) 17 (by decide) (by decide) (by decide)

/-- Claim C10.  pchar_to_string strips NUL bytes from both ends of the
decoded byte string: padding any byte string with leading and trailing
zero bytes does not change the decoded text.  Consequently a Properties
block whose text field is a padded ascii string reports exactly the text
of the unpadded string, leading zeros removed exactly as trailing ones. -/
theorem C10_theorem :
    (∀ (n m : Nat) (s : List Nat),
      pchar_to_string (List.replicate n 0 ++ s ++ List.replicate m 0) =
        pchar_to_string s) ∧
    (∀ (n m index : Nat) (s : List Nat),
      s.all (· < 128) = true → n + (s.length + m) < 4294967296 →
      parse_block_properties
        (enc32 (List.replicate n 0 ++ s ++ List.replicate m 0).length ++
          (List.replicate n 0 ++ s ++ List.replicate m 0)) index =
        .ok [.propsLog index (stripNul s)] ()) := by
  refine ⟨pchar_pad, ?_⟩
  intro n m index s hascii hbound
  set text := List.replicate n 0 ++ s ++ List.replicate m 0 with htext
  have hlt : text.length = n + (s.length + m) := by
    simp [htext]
  have hdl : (enc32 text.length ++ text).length = 4 + text.length := by
    simp [enc32]
    omega
  have hread : readU32 (enc32 text.length ++ text) 0 = text.length := by
    rw [readU32_enc32, Nat.mod_eq_of_lt (by omega)]
  have hdrop : (enc32 text.length ++ text).drop 4 = text := by
    have h := List.drop_left (enc32 text.length) text
    rwa [enc32_length] at h
  have hpch : pchar_to_string text = some (stripNul s) := by
    rw [htext, pchar_pad]
    unfold pchar_to_string
    rw [if_pos hascii]
  unfold parse_block_properties
  rw [hdl, hread, if_neg (by omega), if_neg (by omega), hdrop, List.take_length, hpch,
    if_neg (by omega)]

/-- Witness for C10_theorem: the text 0x00 0x00 A B 0x00 0x00 0x00 is
reported as AB. -/
theorem C10_witness :
    parse_block_properties
      (enc32 (List.replicate 2 0 ++ [65, 66] ++ List.replicate 3 0).length ++
        (List.replicate 2 0 ++ [65, 66] ++ List.replicate 3 0)) 4 =
      .ok [.propsLog 4 (stripNul [65, 66])] () :=
  C10_theorem.2 2 3 4 [65, 66] (by decide) (by decide)
